import Mathlib

/-!
Verification development for the functic repository: a shallow embedding of the
tool-definition / argument-parsing / batch-resolution / registration / entity-cache
core, with theorems settling the specification claims.

Sources embedded: src/functic/_functic.py, src/functic/app.py,
src/scripts/assistant_run.py, src/functic/functions/assorted/currencies.py,
src/functic/utils/openai_utils/ensure.py.  Parts of the repository that are
referenced but not present under src/ (functic.types, functic.utils.function_definition,
functic.utils.function_tool, the execute/sync_execute methods) are modelled from the
spec and marked as such in their doc comments.
-/

/-- JSON values, as produced by json.loads: objects keep field order as a list
of key/value pairs.  Numbers are modelled as integers (no claim in this
development exercises a fractional literal). -/
inductive Json where
  | null : Json
  | bool : Bool → Json
  | num : Int → Json
  | str : String → Json
  | arr : List Json → Json
  | obj : List (String × Json) → Json

/-- Lookup of a key in a JSON object; none on non-objects or missing keys. -/
def jsonLookup (j : Json) (k : String) : Option Json :=
  match j with
  | Json.obj fields => (fields.find? (fun p => p.1 = k)).map (fun p => p.2)
  | _ => none

/-- Whitespace characters skipped by the JSON reader. -/
def isWsChar (c : Char) : Bool :=
  c = ' ' || c = '\n' || c = '\t' || c = '\r'

/-- Drop leading whitespace. -/
def dropWs (cs : List Char) : List Char :=
  cs.dropWhile isWsChar

/-- Consume the body of a double-quoted string up to the closing quote (the
modelled argument strings contain no escape sequences). -/
def takeStrAux : List Char → Option (List Char × List Char)
  | [] => none
  | c :: rest =>
    if c = '"' then some ([], rest)
    else
      match takeStrAux rest with
      | some (s, r) => some (c :: s, r)
      | none => none

/-- Digits to a natural number, most significant first. -/
def digitsToNat (ds : List Char) : Nat :=
  ds.foldl (fun a c => a * 10 + (c.toNat - 48)) 0

mutual

/-- Fuel-indexed recursive-descent JSON value reader. -/
def parseVal : Nat → List Char → Option (Json × List Char)
  | 0, _ => none
  | fuel + 1, cs =>
    match dropWs cs with
    | [] => none
    | c :: rest =>
      if c = '\x7b' then
        match dropWs rest with
        | '\x7d' :: r2 => some (Json.obj [], r2)
        | _ => parseObjFields fuel rest
      else if c = '[' then
        match dropWs rest with
        | ']' :: r2 => some (Json.arr [], r2)
        | _ => parseArrElems fuel rest
      else if c = '"' then
        match takeStrAux rest with
        | some (s, r) => some (Json.str (String.mk s), r)
        | none => none
      else if c = 'n' then
        match rest with
        | 'u' :: 'l' :: 'l' :: r => some (Json.null, r)
        | _ => none
      else if c = 't' then
        match rest with
        | 'r' :: 'u' :: 'e' :: r => some (Json.bool true, r)
        | _ => none
      else if c = 'f' then
        match rest with
        | 'a' :: 'l' :: 's' :: 'e' :: r => some (Json.bool false, r)
        | _ => none
      else if c = '-' then
        match (rest.span Char.isDigit) with
        | (digits, r) =>
          if digits.isEmpty then none
          else some (Json.num (-(Int.ofNat (digitsToNat digits))), r)
      else if c.isDigit then
        match ((c :: rest).span Char.isDigit) with
        | (digits, r) => some (Json.num (Int.ofNat (digitsToNat digits)), r)
      else none

/-- Object fields after the opening brace of a non-empty object. -/
def parseObjFields : Nat → List Char → Option (Json × List Char)
  | 0, _ => none
  | fuel + 1, cs =>
    match dropWs cs with
    | '"' :: rest =>
      match takeStrAux rest with
      | none => none
      | some (k, r1) =>
        match dropWs r1 with
        | ':' :: r2 =>
          match parseVal fuel r2 with
          | none => none
          | some (v, r3) =>
            match dropWs r3 with
            | ',' :: r4 =>
              match parseObjFields fuel r4 with
              | some (Json.obj fs, r5) => some (Json.obj ((String.mk k, v) :: fs), r5)
              | _ => none
            | '\x7d' :: r4 => some (Json.obj [(String.mk k, v)], r4)
            | _ => none
        | _ => none
    | _ => none

/-- Array elements after the opening bracket of a non-empty array. -/
def parseArrElems : Nat → List Char → Option (Json × List Char)
  | 0, _ => none
  | fuel + 1, cs =>
    match parseVal fuel cs with
    | none => none
    | some (v, r1) =>
      match dropWs r1 with
      | ',' :: r2 =>
        match parseArrElems fuel r2 with
        | some (Json.arr vs, r3) => some (Json.arr (v :: vs), r3)
        | _ => none
      | ']' :: r2 => some (Json.arr [v], r2)
      | _ => none

end

/-- Modelled from the spec: the composition json.loads(repair_json(s)) used by
FuncticBaseModel.from_args_str.  The json_repair library is an external
dependency, not part of this repository; the spec (section 4.2 and the glossary
entry Repair) describes it as a best-effort structural repair pass applied
before strict validation.  Well-formed JSON passes through the repair unchanged
and is read by the value reader above; an input that is only whitespace carries
no structure for the repair pass to recover, so it yields the empty string
value (repair_json returns the serialization of the empty string, which
json.loads reads back as the string value), not an empty object.  Inputs the
reader cannot handle are modelled as a json.loads failure (none). -/
def repairLoads (s : String) : Option Json :=
  let cs := dropWs s.toList
  if cs.isEmpty then some (Json.str "")
  else
    match parseVal (cs.length + 1) cs with
    | some (v, _) => some v
    | none => none

/-- Default of FuncticConfig.error_content (src/functic/_functic.py lines 106-113):
the dedented and stripped fallback message. -/
def defaultErrorContent : String :=
  "The service is currently unavailable. Please try again later."

/-- FuncticConfig (src/functic/_functic.py lines 92-113): static metadata of a
tool.  The pydantic pattern constraint on name is enforced at validation time,
modelled separately by funcgicConfigValidate below. -/
structure FuncticConfig where
  name : String
  description : String
  function : String
  error_content : String := defaultErrorContent
deriving DecidableEq, Repr

/-- FuncticConfig.is_config_valid (src/functic/_functic.py lines 115-117): the
body is literally `return True` (with a TODO to implement validation). -/
def FuncticConfig.is_config_valid (_config : FuncticConfig) : Bool :=
  true

/-- FuncticConfig.is_valid (src/functic/_functic.py lines 119-120). -/
def FuncticConfig.is_valid (c : FuncticConfig) : Bool :=
  c.is_config_valid

/-- FuncticConfig.raise_if_invalid (src/functic/_functic.py lines 122-124):
raises ValueError when is_config_valid is false. -/
def FuncticConfig.raise_if_invalid (c : FuncticConfig) : Except String Unit :=
  if c.is_config_valid then Except.ok () else Except.error ("Invalid configuration")

/-- Match of the pydantic pattern `^[a-zA-Z0-9_-]*$` on the name field
(src/functic/_functic.py lines 93-97): anchored at both ends with a starred
character class, so it holds exactly when every character of the string is
alphanumeric, an underscore or a hyphen — and vacuously for the empty string. -/
def nameMatchesPattern (s : String) : Bool :=
  s.toList.all (fun c => c.isAlpha || c.isDigit || c = '_' || c = '-')

/-- Pydantic validation of a FuncticConfig from its field values: the only
declared constraint is the name pattern. -/
def funcgicConfigValidate (name description function : String) : Except String FuncticConfig :=
  if nameMatchesPattern name then
    Except.ok { name := name, description := description, function := function }
  else Except.error ("String should match pattern")

/-- One registered tool class (a FuncticBaseModel subclass,
src/functic/_functic.py lines 179-219), reduced to the interface the embedded
code paths use: its config, its pydantic argument-schema validation
(model_validate on parsed kwargs, returning the validated instance's fields or
a validation error), its derived JSON schema, and the net content produced by
executing the underlying callable on validated arguments and rendering the
outcome (total, per spec section 4.3: the executor substitutes error content on
callable failure rather than raising). -/
structure FuncticToolClass where
  functic_config : FuncticConfig
  model_validate : Json → Except String Json
  json_schema : Json
  execute_content : Json → String

/-- FuncticBaseModel.from_args_str (src/functic/_functic.py lines 203-208):
`json.loads(repair_json(args_str)) if args_str else {}` followed by
model_validate.  Note the guard is Python truthiness of the string, which is
false only for the empty string — a whitespace-only string takes the repair
path. -/
def from_args_str (cls : FuncticToolClass) (args_str : String) : Except String Json :=
  match (if args_str = "" then some (Json.obj []) else repairLoads args_str) with
  | none => Except.error ("JSONDecodeError")
  | some kwargs => cls.model_validate kwargs

/-- FunctionDefinition (openai.types.shared.function_definition, consumed by
src/functic/_functic.py): name, optional description, optional parameters. -/
structure FunctionDefinition where
  name : String
  description : Option String
  parameters : Option Json

/-- ChatCompletionTool (functic.types.chat_completion_tool, not under src/):
per the spec's Schema Deriver contract it wraps the function definition under
the key `function` beside type "function". -/
structure ChatCompletionTool where
  function : FunctionDefinition
  type : String

/-- FunctionTool (openai.types.beta.function_tool): assistant-style envelope,
same wrapping shape. -/
structure FunctionTool where
  function : FunctionDefinition
  type : String

/-- Modelled from the spec: functic.utils.function_definition.from_base_model
(imported by src/functic/_functic.py lines 31-33 but not present under src/).
Spec section 4.1: a generic record with name, description and parameters
derived deterministically from the tool's config and argument schema. -/
def function_definition (cls : FuncticToolClass) : FunctionDefinition :=
  { name := cls.functic_config.name
    description := some cls.functic_config.description
    parameters := some cls.json_schema }

/-- FuncticChatCompletionToolDescriptor.__get__ (src/functic/_functic.py lines
36-49): ChatCompletionTool.model_validate of an envelope holding
owner.function_definition under the key function. -/
def chat_completion_tool (cls : FuncticToolClass) : ChatCompletionTool :=
  { function := function_definition cls, type := "function" }

/-- model_dump with none fields excluded, for the serialization-ready
parameter forms. -/
def dumpFunctionDefinition (fd : FunctionDefinition) : Json :=
  Json.obj
    ([("name", Json.str fd.name)]
      ++ (match fd.description with
          | some d => [("description", Json.str d)]
          | none => [])
      ++ (match fd.parameters with
          | some p => [("parameters", p)]
          | none => []))

/-- FuncticChatCompletionToolParamDescriptor.__get__ (src/functic/_functic.py
lines 52-62): owner.chat_completion_tool.model_dump(exclude_none=True). -/
def chat_completion_tool_param (cls : FuncticToolClass) : Json :=
  Json.obj
    [("type", Json.str (chat_completion_tool cls).type),
     ("function", dumpFunctionDefinition (chat_completion_tool cls).function)]

/-- Modelled from the spec: functic.utils.function_tool.from_base_model
(imported by src/functic/_functic.py lines 65-76 but not present under src/).
Spec section 4.1: the assistant-style envelope wrapping the same function
definition. -/
def function_tool (cls : FuncticToolClass) : FunctionTool :=
  { function := function_definition cls, type := "function" }

/-- FuncticFunctionToolParamDescriptor.__get__ (src/functic/_functic.py lines
79-89): owner.function_tool.model_dump(exclude_none=True). -/
def function_tool_param (cls : FuncticToolClass) : Json :=
  Json.obj
    [("type", Json.str (function_tool cls).type),
     ("function", dumpFunctionDefinition (function_tool cls).function)]

/-- RequiredActionFunctionToolCall: one pending tool call from the engine
(id, function name, raw argument string). -/
structure ToolCall where
  id : String
  name : String
  arguments : String
deriving DecidableEq, Repr

/-- ToolOutput (functic.types.tool_output / the run-submission parameter form):
the call id echoed back with the rendered content.  Built by
FuncticParser.parse_function_return_as_assistant_tool_output
(src/functic/_functic.py lines 155-166) from parse_content and the stored
tool_call_id. -/
structure ToolOutput where
  tool_call_id : String
  output : String
deriving DecidableEq, Repr

/-- Errors the batch endpoints raise: the 404 HTTPException for an unknown
function name (src/functic/app.py lines 161-165), the pydantic ValidationError
escaping from from_args_str, and the ValueError of
EventHandler.handle_requires_action (src/scripts/assistant_run.py lines 83-87). -/
inductive ApiError where
  | notFound : String → ApiError
  | validationErr : String → ApiError
deriving DecidableEq, Repr

/-- Dictionary lookup in the registry mapping name to tool class. -/
def lookupTool (fns : List (String × FuncticToolClass)) (n : String) : Option FuncticToolClass :=
  (fns.find? (fun p => p.1 = n)).map (fun p => p.2)

/-- First loop of api_assistant_tool_calls (src/functic/app.py lines 160-165):
raise 404 on the first tool call whose function name is not registered. -/
def checkRegistered (fns : List (String × FuncticToolClass)) : List ToolCall → Except ApiError Unit
  | [] => Except.ok ()
  | c :: rest =>
    if (lookupTool fns c.name).isSome then checkRegistered fns rest
    else Except.error (ApiError.notFound c.name)

/-- Body of the execution loop of api_assistant_tool_calls (src/functic/app.py
lines 169-176): index the registry, parse the raw arguments (a pydantic
ValidationError propagates), set the tool call id, execute, collect the tool
output.  Execution itself is total (spec section 4.3). -/
def execOne (fns : List (String × FuncticToolClass)) (c : ToolCall) : Except ApiError ToolOutput :=
  match lookupTool fns c.name with
  | none => Except.error (ApiError.notFound c.name)
  | some cls =>
    match from_args_str cls c.arguments with
    | Except.error e => Except.error (ApiError.validationErr e)
    | Except.ok args => Except.ok { tool_call_id := c.id, output := cls.execute_content args }

/-- Sequential for-loop collecting outputs, aborting on the first raised
error. -/
def collectOutputs (f : ToolCall → Except ApiError ToolOutput) : List ToolCall → Except ApiError (List ToolOutput)
  | [] => Except.ok []
  | c :: rest =>
    match f c with
    | Except.error e => Except.error e
    | Except.ok o =>
      match collectOutputs f rest with
      | Except.error e => Except.error e
      | Except.ok os => Except.ok (o :: os)

/-- api_assistant_tool_calls (src/functic/app.py lines 152-178): check every
name is registered (404 otherwise), then execute each call in order and return
the collected tool outputs; any uncaught exception in the loop aborts the whole
request with nothing submitted. -/
def api_assistant_tool_calls (fns : List (String × FuncticToolClass))
    (tool_calls : List ToolCall) : Except ApiError (List ToolOutput) :=
  match checkRegistered fns tool_calls with
  | Except.error e => Except.error e
  | Except.ok () => collectOutputs (execOne fns) tool_calls

/-- Body of the loop of EventHandler.handle_requires_action
(src/scripts/assistant_run.py lines 82-103): unlike the endpoint above, the
unknown-tool check happens inline (ValueError), then parse, execute and collect
the output param. -/
def handleOne (fns : List (String × FuncticToolClass)) (c : ToolCall) : Except ApiError ToolOutput :=
  match lookupTool fns c.name with
  | none => Except.error (ApiError.notFound c.name)
  | some cls =>
    match from_args_str cls c.arguments with
    | Except.error e => Except.error (ApiError.validationErr e)
    | Except.ok args => Except.ok { tool_call_id := c.id, output := cls.execute_content args }

/-- EventHandler.handle_requires_action (src/scripts/assistant_run.py lines
76-106): process every pending tool call of the required action in order and
submit all tool outputs at the end; an exception raised mid-loop propagates and
nothing is submitted. -/
def handle_requires_action (fns : List (String × FuncticToolClass))
    (tool_calls : List ToolCall) : Except ApiError (List ToolOutput) :=
  collectOutputs (handleOne fns) tool_calls

/-- Discriminator for batch results: true exactly when the batch completed and
its outputs were submitted. -/
def batchSubmitted (r : Except ApiError (List ToolOutput)) : Bool :=
  match r with
  | Except.ok _ => true
  | Except.error _ => false

/-- CurrencySymbol literal values (src/functic/functions/assorted/currencies.py
lines 12-44). -/
def currencySymbols : List String :=
  ["AUD", "BGN", "BRL", "CAD", "CHF", "CNY", "CZK", "DKK", "EUR", "GBP", "HKD",
   "HUF", "IDR", "ILS", "INR", "ISK", "JPY", "KRW", "MXN", "MYR", "NOK", "NZD",
   "PHP", "PLN", "RON", "SEK", "SGD", "THB", "TRY", "USD", "ZAR"]

/-- GET_CURRENCIES_CONFIG (src/functic/functions/assorted/currencies.py lines
79-89). -/
def GET_CURRENCIES_CONFIG : FuncticConfig :=
  { name := "get_currencies"
    description := "This function retrieves a list of supported currencies, including their symbols and full names. It provides standardized currency information for applications requiring financial data or currency conversions."
    function := "functic.functions.assorted.currencies:get_currencies" }

/-- Pydantic validation of the base field of GetCurrencies
(src/functic/functions/assorted/currencies.py lines 112-114): a CurrencySymbol
literal with default "USD"; values outside the enumeration are rejected. -/
def validateBase : Option Json → Except String Json
  | none => Except.ok (Json.str "USD")
  | some (Json.str s) =>
    if currencySymbols.contains s then Except.ok (Json.str s)
    else Except.error ("Input should be a valid CurrencySymbol")
  | some _ => Except.error ("Input should be a valid string")

/-- Pydantic validation of the symbols field of GetCurrencies
(src/functic/functions/assorted/currencies.py lines 115-117): an optional list
of CurrencySymbol literals, default None. -/
def validateSymbols : Option Json → Except String Json
  | none => Except.ok Json.null
  | some Json.null => Except.ok Json.null
  | some (Json.arr xs) =>
    if xs.all (fun x =>
        match x with
        | Json.str s => currencySymbols.contains s
        | _ => false) then Except.ok (Json.arr xs)
    else Except.error ("Input should be a valid CurrencySymbol")
  | some _ => Except.error ("Input should be a valid list")

/-- GetCurrencies.model_validate on parsed kwargs: pydantic accepts a dict,
validates each declared field (applying defaults) and rejects any non-dict
input; the validated instance is rendered as its normalized field object. -/
def getCurrenciesValidate (j : Json) : Except String Json :=
  match j with
  | Json.obj fields =>
    match validateBase ((fields.find? (fun p => p.1 = "base")).map (fun p => p.2)) with
    | Except.error e => Except.error e
    | Except.ok b =>
      match validateSymbols ((fields.find? (fun p => p.1 = "symbols")).map (fun p => p.2)) with
      | Except.error e => Except.error e
      | Except.ok s => Except.ok (Json.obj [("base", b), ("symbols", s)])
  | _ => Except.error ("Input should be a valid dictionary or instance of GetCurrencies")

/-- GetCurrenciesResponse (src/functic/functions/assorted/currencies.py lines
140-153).  The float-valued fields (amount and the rate values) are abstracted
by their rendered decimal strings; only base, date and rates are read by
parse_content. -/
structure GetCurrenciesResponse where
  amount : String
  base : String
  date : String
  rates : List (String × String)
deriving DecidableEq, Repr

/-- Python value handed to GetCurrencies.parse_content: None, a value of some
other type, or an actual GetCurrenciesResponse (pydantic models define neither
a length nor a truth method, so an actual response instance is always truthy). -/
inductive PyRespValue where
  | pyNone : PyRespValue
  | nonResponse : PyRespValue
  | resp : GetCurrenciesResponse → PyRespValue
deriving DecidableEq, Repr

/-- Outcome of invoking the underlying callable: it raised, or it returned a
value. -/
inductive CallOutcome where
  | raised : String → CallOutcome
  | returned : PyRespValue → CallOutcome
deriving DecidableEq, Repr

/-- GetCurrencies.parse_content (src/functic/functions/assorted/currencies.py
lines 119-137): a falsy response or a value that is not a GetCurrenciesResponse
renders as the configured error content; otherwise the rates are formatted one
per line (the try/except around the pure formatting cannot fire in the model). -/
def GetCurrencies.parse_content (v : PyRespValue) : String :=
  match v with
  | PyRespValue.pyNone => GET_CURRENCIES_CONFIG.error_content
  | PyRespValue.nonResponse => GET_CURRENCIES_CONFIG.error_content
  | PyRespValue.resp r =>
    "The base currency is " ++ r.base ++ " on " ++ r.date ++ ". " ++
      "Exchange rates:\n" ++
      String.intercalate "\n" (r.rates.map (fun p => p.1 ++ ": " ++ p.2))

/-- Modelled from the spec: the execute/sync_execute method of FuncticBaseModel
(called at src/functic/app.py line 174 and src/scripts/assistant_run.py line 99
but not present under src/).  Spec section 4.3: on any exception from the
callable the executor does not propagate it — it logs and substitutes the
configured error text; otherwise the returned value is rendered through
parse_content. -/
def executeRender (o : CallOutcome) : String :=
  match o with
  | CallOutcome.raised _ => GET_CURRENCIES_CONFIG.error_content
  | CallOutcome.returned v => GetCurrencies.parse_content v

/-- Failing call outcomes in the sense of the spec: the callable raised, or it
returned an empty or wrongly-typed response. -/
def outcomeFails (o : CallOutcome) : Bool :=
  match o with
  | CallOutcome.raised _ => true
  | CallOutcome.returned PyRespValue.pyNone => true
  | CallOutcome.returned PyRespValue.nonResponse => true
  | CallOutcome.returned (PyRespValue.resp _) => false

/-- model_json_schema of GetCurrencies, abbreviated to the shape the schema
consistency claim needs (its content is opaque to every theorem below). -/
def gcSchema : Json :=
  Json.obj
    [("type", Json.str "object"),
     ("properties",
      Json.obj
        [("base", Json.obj [("type", Json.str "string")]),
         ("symbols", Json.obj [("type", Json.str "array")])])]

/-- The GetCurrencies tool class, with the callable's outcome in a given run
environment supplied as a parameter (the real callable performs an HTTP
request; its outcome for one execution is data to the resolver). -/
def gcClassWith (o : CallOutcome) : FuncticToolClass :=
  { functic_config := GET_CURRENCIES_CONFIG
    model_validate := getCurrenciesValidate
    json_schema := gcSchema
    execute_content := fun _ => executeRender o }

/-- Canonical successful environment: the documented example response
(src/functic/functions/assorted/currencies.py lines 154-190, abbreviated). -/
def gcOkResponse : GetCurrenciesResponse :=
  { amount := "1.0"
    base := "EUR"
    date := "2024-12-13"
    rates := [("USD", "1.0518"), ("JPY", "161.45")] }

/-- The GetCurrencies class in an environment where the HTTP call succeeds. -/
def gcClassOk : FuncticToolClass :=
  gcClassWith (CallOutcome.returned (PyRespValue.resp gcOkResponse))

/-- Registration state of the lifespan loop (src/functic/app.py lines 39-73):
the functic_functions dict and the duplicate-name warnings emitted so far
(recorded by the name that was warned about). -/
structure RegState where
  registry : List (String × FuncticToolClass)
  warnings : List String

/-- Python dict assignment d[k] = v: overwrite in place when the key is
present (keeping its position), append otherwise. -/
def dictInsert (r : List (String × FuncticToolClass)) (n : String) (cls : FuncticToolClass) :
    List (String × FuncticToolClass) :=
  match r with
  | [] => [(n, cls)]
  | (k, v) :: rest =>
    if k = n then (n, cls) :: rest else (k, v) :: dictInsert rest n cls

/-- One iteration of the registration loop (src/functic/app.py lines 47-71):
validate the class config (raise_if_invalid), warn when the name is already
registered, then insert last-wins. -/
def loadStep (st : RegState) (cls : FuncticToolClass) : Except String RegState :=
  match cls.functic_config.raise_if_invalid with
  | Except.error e => Except.error e
  | Except.ok () =>
    let n := cls.functic_config.name
    Except.ok
      { registry := dictInsert st.registry n cls
        warnings := if (lookupTool st.registry n).isSome then st.warnings ++ [n] else st.warnings }

/-- The pure fold underlying the registration pass (raise_if_invalid can in
fact never fail, which loadRegistry_eq_pure below makes precise). -/
def loadPure (st : RegState) : List FuncticToolClass → RegState
  | [] => st
  | cls :: rest =>
    loadPure
      { registry := dictInsert st.registry cls.functic_config.name cls
        warnings :=
          if (lookupTool st.registry cls.functic_config.name).isSome then
            st.warnings ++ [cls.functic_config.name]
          else st.warnings }
      rest

/-- Registration pass of lifespan (src/functic/app.py lines 39-73) over the
classes discovered in the configured modules, in discovery order, starting from
the empty dict. -/
def loadRegistry (classes : List FuncticToolClass) : Except String RegState :=
  classes.foldlM loadStep { registry := [], warnings := [] }

/-- Number of registry entries stored under a name. -/
def countKey (r : List (String × FuncticToolClass)) (n : String) : Nat :=
  (r.filter (fun p => p.1 = n)).length

/-- Number of discovered classes declaring a config name. -/
def countNamed (classes : List FuncticToolClass) (n : String) : Nat :=
  (classes.filter (fun c => c.functic_config.name = n)).length

/-- The most recently discovered class declaring a name. -/
def lastNamed (classes : List FuncticToolClass) (n : String) : Option FuncticToolClass :=
  classes.reverse.find? (fun c => c.functic_config.name = n)

/-- One stored cache entry (the Entity Cache of spec section 4.6): key, value
blob, absolute expiry time. -/
structure CacheEntry where
  key : String
  value : String
  expiresAt : Nat
deriving DecidableEq, Repr

/-- Backend get (diskcache/redis semantics): the stored value while its expiry
time has not been reached, nothing afterwards. -/
def cacheGet (now : Nat) (c : List CacheEntry) (k : String) : Option String :=
  match c.find? (fun e => e.key = k) with
  | some e => if now < e.expiresAt then some e.value else none
  | none => none

/-- Backend set(key, value, expire): store with expiry now + expire,
overwriting any previous entry for the key. -/
def cacheSet (now : Nat) (c : List CacheEntry) (k v : String) (expire : Nat) : List CacheEntry :=
  match c with
  | [] => [{ key := k, value := v, expiresAt := now + expire }]
  | e :: rest =>
    if e.key = k then { key := k, value := v, expiresAt := now + expire } :: rest
    else e :: cacheSet now rest k v expire

/-- Result of one ensure_assistant call: the serialized assistant returned, the
cache backend state afterwards, and whether the remote lookup (the loader of
spec section 4.6 — retrieve by id or scan by name) actually ran. -/
structure EnsureOutcome where
  assistant : String
  cache : Option (List CacheEntry)
  loaderRan : Bool
deriving DecidableEq, Repr

/-- Python truthiness of the cache backend object as it appears in the guards
`if force is False and cache:` (ensure.py line 25) and `if cache:` (line 52):
the declared backend type is diskcache.Cache or redis.Redis, and
diskcache.Cache defines a length and no boolean conversion, so a missing
backend is falsy and so is a present but EMPTY backend — truthiness is
presence with at least one stored entry. -/
def cacheTruthy : Option (List CacheEntry) → Bool
  | some c => !c.isEmpty
  | none => false

/-- ensure_assistant (src/functic/utils/openai_utils/ensure.py lines 13-55).
`remote` stands for the serialization of the assistant the remote lookup finds
(the lookup itself goes through the network and iter_assistants, which is not
part of this repository; the not-found ValueError path is not modelled since
every claim concerns the found case).  Both the cache read and the cache write
are guarded by the Python truthiness of the backend object (cacheTruthy): with
force false and a truthy backend, a truthy cached blob is returned as is;
otherwise the remote lookup runs, and its result is stored with the configured
expiry only when the backend is truthy — an empty backend therefore skips both
the read and the write. -/
def ensure_assistant (now : Nat) (assistant_id_or_name : String) (remote : String)
    (cache : Option (List CacheEntry)) (expire : Nat) (force : Bool) : EnsureOutcome :=
  let cache_key := "openai:assistant:" ++ assistant_id_or_name
  let hit : Option String :=
    if force = false ∧ cacheTruthy cache = true then
      match cache with
      | some c =>
        match cacheGet now c cache_key with
        | some v => if v = "" then none else some v
        | none => none
      | none => none
    else none
  match hit with
  | some v => { assistant := v, cache := cache, loaderRan := false }
  | none =>
    { assistant := remote
      cache :=
        if cacheTruthy cache = true then
          match cache with
          | some c => some (cacheSet now c cache_key remote expire)
          | none => none
        else cache
      loaderRan := true }

/-- Exactly-once correspondence between a batch of incoming calls and the
submitted outputs: one output per call, in order, each echoing the call id. -/
def outputsMatchCalls (calls : List ToolCall) (outs : List ToolOutput) : Prop :=
  outs.length = calls.length ∧
  (∀ i (h1 : i < outs.length) (h2 : i < calls.length),
    (outs.get ⟨i, h1⟩).tool_call_id = (calls.get ⟨i, h2⟩).id) ∧
  (calls ≠ [] → outs ≠ [])

/-- Tool class registered under the empty name, exercising the name pattern. -/
def emptyNameClass : FuncticToolClass :=
  { functic_config := { name := "", description := "tool with empty name", function := "m:f" }
    model_validate := getCurrenciesValidate
    json_schema := gcSchema
    execute_content := fun _ => "ok" }

/-- First of two distinguishable tool classes sharing the config name dup. -/
def dupClassA : FuncticToolClass :=
  { functic_config := { name := "dup", description := "first duplicate", function := "m:a" }
    model_validate := getCurrenciesValidate
    json_schema := gcSchema
    execute_content := fun _ => "a" }

/-- Second of two distinguishable tool classes sharing the config name dup. -/
def dupClassB : FuncticToolClass :=
  { functic_config := { name := "dup", description := "second duplicate", function := "m:b" }
    model_validate := getCurrenciesValidate
    json_schema := gcSchema
    execute_content := fun _ => "b" }

/-- Registry holding only the GetCurrencies tool in a succeeding environment. -/
def gcRegistry : List (String × FuncticToolClass) :=
  [("get_currencies", gcClassOk)]

/-- Rendered content of a successful get_currencies execution in the canonical
environment. -/
def gcOkContent : String :=
  "The base currency is EUR on 2024-12-13. Exchange rates:\nUSD: 1.0518\nJPY: 161.45"

/-- Concrete pending call with valid (empty) arguments. -/
def callOk1 : ToolCall :=
  { id := "call_1", name := "get_currencies", arguments := "" }

/-- Second concrete pending call with valid (empty) arguments. -/
def callOk2 : ToolCall :=
  { id := "call_2", name := "get_currencies", arguments := "" }

/-- Concrete pending call whose base argument is outside the enumeration. -/
def callBadArgs : ToolCall :=
  { id := "call_1", name := "get_currencies", arguments := "\x7b\"base\": \"XXX\"\x7d" }

/-- Concrete pending call naming a tool absent from the registry. -/
def callUnknown : ToolCall :=
  { id := "call_1", name := "get_weather", arguments := "" }

/-- C9: is_config_valid returns True for every FuncticConfig and
raise_if_invalid never raises — the static configuration validation applied at
registration time is vacuous. -/
theorem c9_config_validation_vacuous (c : FuncticConfig) :
    c.is_config_valid = true ∧ c.is_valid = true ∧ c.raise_if_invalid = Except.ok () :=
  ⟨rfl, rfl, rfl⟩

/-- C10: the name pattern admits the empty string — a FuncticConfig with name
"" validates successfully, and a tool class carrying that config passes the
registration pass and lands in the registry under the empty name. -/
theorem c10_empty_name_admitted :
    nameMatchesPattern "" = true ∧
    funcgicConfigValidate "" "tool with empty name" "m:f" =
      Except.ok { name := "", description := "tool with empty name", function := "m:f" } ∧
    ∃ st, loadRegistry [emptyNameClass] = Except.ok st ∧
      lookupTool st.registry "" = some emptyNameClass :=
  ⟨rfl, rfl, _, rfl, rfl⟩

/-- C3: for every tool class, the four derived schema representations — the
function definition, the chat-completion tool and its parameter form, the
function tool and its parameter form — agree on name, description and
parameters, differing only in envelope structure. -/
theorem c3_schema_representations_agree (cls : FuncticToolClass) :
    (function_definition cls).name = cls.functic_config.name ∧
    (function_definition cls).description = some cls.functic_config.description ∧
    (function_definition cls).parameters = some cls.json_schema ∧
    (chat_completion_tool cls).function = function_definition cls ∧
    (function_tool cls).function = function_definition cls ∧
    jsonLookup (chat_completion_tool_param cls) "function" =
      some (dumpFunctionDefinition (function_definition cls)) ∧
    jsonLookup (function_tool_param cls) "function" =
      some (dumpFunctionDefinition (function_definition cls)) :=
  ⟨rfl, rfl, rfl, rfl, rfl, rfl, rfl⟩

/-- C5 counterexample: parsing the single-space argument string is not the same
as parsing the empty-object string — for the GetCurrencies tool the whitespace
string takes the repair path (the truthiness guard of from_args_str only
short-circuits the genuinely empty string), comes back as the empty string
value rather than an object, and fails model validation, while the
empty-object string validates successfully with defaults applied. -/
theorem c5_counterexample :
    (from_args_str gcClassOk " ").isOk = false ∧
    (from_args_str gcClassOk "\x7b\x7d").isOk = true ∧
    from_args_str gcClassOk "\x7b\x7d" =
      Except.ok (Json.obj [("base", Json.str "USD"), ("symbols", Json.null)]) :=
  ⟨rfl, rfl, rfl⟩

/-- C5 amended: only the genuinely empty raw argument string is treated as the
empty argument object — for every tool class, parsing "" yields the same
validated instance as parsing the empty-object string; a whitespace-only
string instead goes through the repair path, which produces the empty string
value rather than an object, so it is handed to model validation as a
non-dictionary (and for an object-schema tool such as GetCurrencies fails). -/
theorem c5_empty_string_equals_empty_object :
    (∀ cls : FuncticToolClass, from_args_str cls "" = from_args_str cls "\x7b\x7d") ∧
    (∀ cls : FuncticToolClass, from_args_str cls " " = cls.model_validate (Json.str "")) ∧
    (from_args_str gcClassOk " ").isOk = false :=
  ⟨fun _ => rfl, fun _ => rfl, rfl⟩

theorem collectOutputs_ok_spec (f : ToolCall → Except ApiError ToolOutput)
    (hf : ∀ c o, f c = Except.ok o → o.tool_call_id = c.id) :
    ∀ calls outs, collectOutputs f calls = Except.ok outs → outputsMatchCalls calls outs := by
  intro calls
  induction calls with
  | nil =>
    intro outs h
    simp only [collectOutputs] at h
    cases h
    exact ⟨rfl, fun i h1 h2 => absurd h1 (by simp), fun h => absurd rfl h⟩
  | cons c rest ih =>
    intro outs h
    simp only [collectOutputs] at h
    cases hfc : f c with
    | error e => rw [hfc] at h; cases h
    | ok o =>
      rw [hfc] at h
      cases hrec : collectOutputs f rest with
      | error e => rw [hrec] at h; cases h
      | ok os =>
        rw [hrec] at h
        cases h
        obtain ⟨hlen, hids, _⟩ := ih os hrec
        refine ⟨by simp [hlen], ?_, fun _ => by simp⟩
        intro i h1 h2
        match i with
        | 0 => exact hf c o hfc
        | Nat.succ j =>
          exact hids j (by simpa using h1) (by simpa using h2)

theorem checkRegistered_ok (fns : List (String × FuncticToolClass)) :
    ∀ calls, (∀ c ∈ calls, (lookupTool fns c.name).isSome = true) →
      checkRegistered fns calls = Except.ok () := by
  intro calls
  induction calls with
  | nil => intro _; rfl
  | cons c rest ih =>
    intro hall
    simp only [checkRegistered]
    rw [if_pos (hall c (by simp))]
    exact ih (fun d hd => hall d (by simp [hd]))

theorem checkRegistered_error_of_unknown (fns : List (String × FuncticToolClass)) :
    ∀ calls, calls.any (fun c => (lookupTool fns c.name).isNone) = true →
      ∃ n, checkRegistered fns calls = Except.error (ApiError.notFound n) ∧
        lookupTool fns n = none := by
  intro calls
  induction calls with
  | nil => intro h; simp at h
  | cons c rest ih =>
    intro h
    simp only [checkRegistered]
    by_cases hc : (lookupTool fns c.name).isSome = true
    · rw [if_pos hc]
      apply ih
      rcases List.any_eq_true.mp h with ⟨d, hd, hdn⟩
      rcases List.mem_cons.mp hd with rfl | hd'
      · rw [Option.isNone_iff_eq_none] at hdn
        rw [hdn] at hc
        cases hc
      · exact List.any_eq_true.mpr ⟨d, hd', hdn⟩
    · rw [if_neg hc]
      refine ⟨c.name, rfl, ?_⟩
      cases hl : lookupTool fns c.name with
      | none => rfl
      | some v => rw [hl] at hc; exact absurd rfl hc

theorem collectOutputs_error_shape (f : ToolCall → Except ApiError ToolOutput) :
    ∀ calls,
      (∀ c ∈ calls, ∀ e, f c = Except.error e → ∃ m, e = ApiError.validationErr m) →
      (∃ c ∈ calls, ∃ e, f c = Except.error e) →
      ∃ m, collectOutputs f calls = Except.error (ApiError.validationErr m) := by
  intro calls
  induction calls with
  | nil => intro _ hex; rcases hex with ⟨c, hc, _⟩; simp at hc
  | cons c rest ih =>
    intro hshape hex
    simp only [collectOutputs]
    cases hfc : f c with
    | error e =>
      rcases hshape c (by simp) e hfc with ⟨m, rfl⟩
      exact ⟨m, rfl⟩
    | ok o =>
      have hex' : ∃ d ∈ rest, ∃ e, f d = Except.error e := by
        rcases hex with ⟨d, hd, e, hde⟩
        rcases List.mem_cons.mp hd with rfl | hd'
        · rw [hfc] at hde; cases hde
        · exact ⟨d, hd', e, hde⟩
      rcases ih (fun d hd => hshape d (by simp [hd])) hex' with ⟨m, hm⟩
      rw [hm]
      exact ⟨m, rfl⟩

theorem collectOutputs_error_of_mem (f : ToolCall → Except ApiError ToolOutput) :
    ∀ calls, (∃ c ∈ calls, ∃ e, f c = Except.error e) →
      ∃ e, collectOutputs f calls = Except.error e := by
  intro calls
  induction calls with
  | nil => intro hex; rcases hex with ⟨c, hc, _⟩; simp at hc
  | cons c rest ih =>
    intro hex
    simp only [collectOutputs]
    cases hfc : f c with
    | error e => exact ⟨e, rfl⟩
    | ok o =>
      have hex' : ∃ d ∈ rest, ∃ e, f d = Except.error e := by
        rcases hex with ⟨d, hd, e, hde⟩
        rcases List.mem_cons.mp hd with rfl | hd'
        · rw [hfc] at hde; cases hde
        · exact ⟨d, hd', e, hde⟩
      rcases ih hex' with ⟨e, he⟩
      rw [he]
      exact ⟨e, rfl⟩

theorem collectOutputs_const_content (f : ToolCall → Except ApiError ToolOutput) (k : String) :
    ∀ calls, (∀ c ∈ calls, f c = Except.ok { tool_call_id := c.id, output := k }) →
      collectOutputs f calls =
        Except.ok (calls.map (fun c => { tool_call_id := c.id, output := k })) := by
  intro calls
  induction calls with
  | nil => intro _; rfl
  | cons c rest ih =>
    intro hall
    simp only [collectOutputs]
    rw [hall c (by simp), ih (fun d hd => hall d (by simp [hd]))]
    rfl

theorem execOne_ok_id (fns : List (String × FuncticToolClass)) (c : ToolCall) (o : ToolOutput)
    (h : execOne fns c = Except.ok o) : o.tool_call_id = c.id := by
  unfold execOne at h
  split at h
  · cases h
  · split at h
    · cases h
    · cases h; rfl

theorem handleOne_ok_id (fns : List (String × FuncticToolClass)) (c : ToolCall) (o : ToolOutput)
    (h : handleOne fns c = Except.ok o) : o.tool_call_id = c.id := by
  unfold handleOne at h
  split at h
  · cases h
  · split at h
    · cases h
    · cases h; rfl

theorem handleOne_error_of_unknown (fns : List (String × FuncticToolClass)) (c : ToolCall)
    (h : lookupTool fns c.name = none) :
    handleOne fns c = Except.error (ApiError.notFound c.name) := by
  unfold handleOne
  rw [h]

theorem execOne_error_validation (fns : List (String × FuncticToolClass)) (c : ToolCall)
    (hreg : (lookupTool fns c.name).isSome = true) (e : ApiError)
    (h : execOne fns c = Except.error e) : ∃ m, e = ApiError.validationErr m := by
  unfold execOne at h
  split at h
  · rename_i hl
    rw [hl] at hreg
    cases hreg
  · split at h
    · cases h
      exact ⟨_, rfl⟩
    · cases h


theorem execOne_error_of_parse_error (fns : List (String × FuncticToolClass)) (c : ToolCall)
    (cls : FuncticToolClass) (hcls : lookupTool fns c.name = some cls) (e : String)
    (he : from_args_str cls c.arguments = Except.error e) :
    execOne fns c = Except.error (ApiError.validationErr e) := by
  simp only [execOne, hcls, he]

theorem execOne_ok_of_parse_ok (fns : List (String × FuncticToolClass)) (c : ToolCall)
    (cls : FuncticToolClass) (hcls : lookupTool fns c.name = some cls) (args : Json)
    (hargs : from_args_str cls c.arguments = Except.ok args) :
    execOne fns c = Except.ok { tool_call_id := c.id, output := cls.execute_content args } := by
  simp only [execOne, hcls, hargs]

/-- C1: whenever a batch of pending tool calls is processed to completion and
its outputs submitted (by the endpoint loop or the event-handler loop), the
submitted set contains exactly one ToolOutput per incoming call, in order, each
echoing the original call id unchanged; in particular it is non-empty whenever
the batch is non-empty. -/
theorem c1_exactly_one_output_per_call (fns : List (String × FuncticToolClass))
    (calls : List ToolCall) (outs : List ToolOutput) :
    (api_assistant_tool_calls fns calls = Except.ok outs → outputsMatchCalls calls outs) ∧
    (handle_requires_action fns calls = Except.ok outs → outputsMatchCalls calls outs) := by
  constructor
  · intro h
    unfold api_assistant_tool_calls at h
    split at h
    · cases h
    · exact collectOutputs_ok_spec (execOne fns) (execOne_ok_id fns) calls outs h
  · intro h
    exact collectOutputs_ok_spec (handleOne fns) (handleOne_ok_id fns) calls outs h

theorem c1_witness :
    api_assistant_tool_calls gcRegistry [callOk1] =
      Except.ok [{ tool_call_id := "call_1", output := gcOkContent }] ∧
    outputsMatchCalls [callOk1] [{ tool_call_id := "call_1", output := gcOkContent }] :=
  ⟨rfl,
   (c1_exactly_one_output_per_call gcRegistry [callOk1]
      [{ tool_call_id := "call_1", output := gcOkContent }]).1 rfl⟩

/-- C2: when at least one call of the batch names a tool absent from the
registry, the endpoint fails with the unknown-tool 404 (naming an unregistered
function) and the event handler raises as well; in both resolvers the batch
result is an error, so no tool outputs are submitted for that batch. -/
theorem c2_unknown_tool_fails_batch (fns : List (String × FuncticToolClass))
    (calls : List ToolCall)
    (h : calls.any (fun c => (lookupTool fns c.name).isNone) = true) :
    (∃ n, api_assistant_tool_calls fns calls = Except.error (ApiError.notFound n) ∧
      lookupTool fns n = none) ∧
    (∃ e, handle_requires_action fns calls = Except.error e) ∧
    batchSubmitted (api_assistant_tool_calls fns calls) = false ∧
    batchSubmitted (handle_requires_action fns calls) = false := by
  obtain ⟨n, hn, hnone⟩ := checkRegistered_error_of_unknown fns calls h
  have hapi : api_assistant_tool_calls fns calls = Except.error (ApiError.notFound n) := by
    unfold api_assistant_tool_calls
    rw [hn]
  rcases List.any_eq_true.mp h with ⟨c, hc, hcn⟩
  have hcnone : lookupTool fns c.name = none := Option.isNone_iff_eq_none.mp hcn
  obtain ⟨e, he⟩ := collectOutputs_error_of_mem (handleOne fns) calls
    ⟨c, hc, ApiError.notFound c.name, handleOne_error_of_unknown fns c hcnone⟩
  refine ⟨⟨n, hapi, hnone⟩, ⟨e, he⟩, ?_, ?_⟩
  · rw [hapi]; rfl
  · show batchSubmitted (collectOutputs (handleOne fns) calls) = false
    rw [he]; rfl

theorem c2_witness :
    ([callUnknown].any (fun c => (lookupTool gcRegistry c.name).isNone) = true) ∧
    ((∃ n, api_assistant_tool_calls gcRegistry [callUnknown] =
        Except.error (ApiError.notFound n) ∧ lookupTool gcRegistry n = none) ∧
     (∃ e, handle_requires_action gcRegistry [callUnknown] = Except.error e) ∧
     batchSubmitted (api_assistant_tool_calls gcRegistry [callUnknown]) = false ∧
     batchSubmitted (handle_requires_action gcRegistry [callUnknown]) = false) :=
  ⟨rfl, c2_unknown_tool_fails_batch gcRegistry [callUnknown] rfl⟩

/-- C4 counterexample: a batch of two calls to the registered get_currencies
tool in which the first call carries an out-of-enumeration base value is NOT
contained to that call — the pydantic validation error escapes
api_assistant_tool_calls, the whole batch aborts, and the second (perfectly
valid) call's output is never submitted. -/
theorem c4_counterexample :
    api_assistant_tool_calls gcRegistry [callBadArgs, callOk2] =
      Except.error (ApiError.validationErr "Input should be a valid CurrencySymbol") ∧
    batchSubmitted (api_assistant_tool_calls gcRegistry [callBadArgs, callOk2]) = false :=
  ⟨rfl, rfl⟩

/-- C4 amended: a schema-validation failure of any call's raw argument string
is not contained to that call — when every call of the batch names a registered
tool and at least one call's arguments fail validation, the batch endpoint
raises the validation error, so no outputs are submitted (the remaining calls'
outputs included) and the whole run aborts. -/
theorem c4_validation_failure_aborts_batch (fns : List (String × FuncticToolClass))
    (calls : List ToolCall)
    (hreg : ∀ c ∈ calls, (lookupTool fns c.name).isSome = true)
    (hfail : ∃ c ∈ calls, ∃ cls, lookupTool fns c.name = some cls ∧
      ∃ e, from_args_str cls c.arguments = Except.error e) :
    ∃ m, api_assistant_tool_calls fns calls = Except.error (ApiError.validationErr m) := by
  unfold api_assistant_tool_calls
  rw [checkRegistered_ok fns calls hreg]
  apply collectOutputs_error_shape
  · intro c hc e he
    exact execOne_error_validation fns c (hreg c hc) e he
  · rcases hfail with ⟨c, hc, cls, hcls, e, he⟩
    exact ⟨c, hc, ApiError.validationErr e, execOne_error_of_parse_error fns c cls hcls e he⟩

theorem c4_witness :
    (∀ c ∈ [callBadArgs, callOk2], (lookupTool gcRegistry c.name).isSome = true) ∧
    (∃ c ∈ [callBadArgs, callOk2], ∃ cls, lookupTool gcRegistry c.name = some cls ∧
      ∃ e, from_args_str cls c.arguments = Except.error e) ∧
    (∃ m, api_assistant_tool_calls gcRegistry [callBadArgs, callOk2] =
      Except.error (ApiError.validationErr m)) := by
  have hreg : ∀ c ∈ [callBadArgs, callOk2], (lookupTool gcRegistry c.name).isSome = true := by
    intro c hc
    rcases List.mem_cons.mp hc with rfl | hc'
    · rfl
    · rcases List.mem_cons.mp hc' with rfl | hc''
      · rfl
      · simp at hc''
  have hfail : ∃ c ∈ [callBadArgs, callOk2], ∃ cls, lookupTool gcRegistry c.name = some cls ∧
      ∃ e, from_args_str cls c.arguments = Except.error e :=
    ⟨callBadArgs, by simp, gcClassOk, rfl, "Input should be a valid CurrencySymbol", rfl⟩
  exact ⟨hreg, hfail, c4_validation_failure_aborts_batch gcRegistry [callBadArgs, callOk2] hreg hfail⟩

/-- C6: whenever the underlying callable of a tool execution fails — raises, or
returns an empty or wrongly-typed response — the rendered content for that call
is exactly the tool's configured error content, no exception reaches the run,
and the batch loop continues: every pending call of the batch still gets its
output collected and the whole batch is submitted. -/
theorem c6_executor_failure_contained (o : CallOutcome) (calls : List ToolCall)
    (ho : outcomeFails o = true)
    (hcalls : ∀ c ∈ calls, c.name = "get_currencies" ∧ c.arguments = "") :
    executeRender o = GET_CURRENCIES_CONFIG.error_content ∧
    api_assistant_tool_calls [("get_currencies", gcClassWith o)] calls =
      Except.ok (calls.map (fun c =>
        { tool_call_id := c.id, output := GET_CURRENCIES_CONFIG.error_content })) := by
  have hrender : executeRender o = GET_CURRENCIES_CONFIG.error_content := by
    cases o with
    | raised m => rfl
    | returned v =>
      cases v with
      | pyNone => rfl
      | nonResponse => rfl
      | resp r => simp [outcomeFails] at ho
  refine ⟨hrender, ?_⟩
  unfold api_assistant_tool_calls
  rw [checkRegistered_ok _ calls (fun c hc => by rw [(hcalls c hc).1]; rfl)]
  show collectOutputs _ calls = _
  apply collectOutputs_const_content
  intro c hc
  have hcls : lookupTool [("get_currencies", gcClassWith o)] c.name = some (gcClassWith o) := by
    rw [(hcalls c hc).1]; rfl
  have hargs : from_args_str (gcClassWith o) c.arguments =
      Except.ok (Json.obj [("base", Json.str "USD"), ("symbols", Json.null)]) := by
    rw [(hcalls c hc).2]; rfl
  rw [execOne_ok_of_parse_ok _ c _ hcls _ hargs]
  show Except.ok (ToolOutput.mk c.id (executeRender o)) =
    Except.ok (ToolOutput.mk c.id GET_CURRENCIES_CONFIG.error_content)
  rw [hrender]

theorem c6_witness :
    outcomeFails (CallOutcome.returned PyRespValue.pyNone) = true ∧
    (∀ c ∈ [callOk1, callOk2], c.name = "get_currencies" ∧ c.arguments = "") ∧
    (executeRender (CallOutcome.returned PyRespValue.pyNone) =
        GET_CURRENCIES_CONFIG.error_content ∧
      api_assistant_tool_calls
          [("get_currencies", gcClassWith (CallOutcome.returned PyRespValue.pyNone))]
          [callOk1, callOk2] =
        Except.ok ([callOk1, callOk2].map (fun c =>
          { tool_call_id := c.id, output := GET_CURRENCIES_CONFIG.error_content }))) := by
  have hcalls : ∀ c ∈ [callOk1, callOk2], c.name = "get_currencies" ∧ c.arguments = "" := by
    intro c hc
    rcases List.mem_cons.mp hc with rfl | hc'
    · exact ⟨rfl, rfl⟩
    · rcases List.mem_cons.mp hc' with rfl | hc''
      · exact ⟨rfl, rfl⟩
      · simp at hc''
  exact ⟨rfl, hcalls,
    c6_executor_failure_contained (CallOutcome.returned PyRespValue.pyNone)
      [callOk1, callOk2] rfl hcalls⟩

theorem cacheGet_cacheSet_same (now t : Nat) (k v : String) (e : Nat) :
    ∀ c, cacheGet now (cacheSet t c k v e) k =
      if now < t + e then some v else none := by
  intro c
  induction c with
  | nil => simp [cacheSet, cacheGet, List.find?]
  | cons entry rest ih =>
    by_cases hk : entry.key = k
    · simp [cacheSet, hk, cacheGet, List.find?]
    · simp only [cacheSet, if_neg hk]
      simp only [cacheGet] at ih ⊢
      rw [List.find?_cons_of_neg _ (by simpa using hk)]
      exact ih

theorem cacheSet_isEmpty_false (now : Nat) (k v : String) (e : Nat) :
    ∀ c, (cacheSet now c k v e).isEmpty = false := by
  intro c
  cases c with
  | nil => rfl
  | cons entry rest =>
    by_cases h : entry.key = k
    · simp [cacheSet, h]
    · simp [cacheSet, h]

/-- C8 counterexample: with a cache backend that is present but empty, both
guards `if force is False and cache:` and `if cache:` are falsy (an empty
diskcache backend has length zero), so the first call neither reads nor writes
the cache and the second call, well inside the expiry window, runs the remote
lookup again — the loader runs twice, not at most once. -/
theorem c8_counterexample :
    (ensure_assistant 0 "asst_functic" "blob" (some []) 900 false).loaderRan = true ∧
    (ensure_assistant 0 "asst_functic" "blob" (some []) 900 false).cache = some [] ∧
    (ensure_assistant 100 "asst_functic" "blob"
      (ensure_assistant 0 "asst_functic" "blob" (some []) 900 false).cache
      900 false).loaderRan = true :=
  ⟨rfl, rfl, rfl⟩

/-- C8 amended: with a NON-EMPTY (hence truthy) cache backend and force false,
two ensure_assistant calls for the same key within the expiry window run the
remote lookup at most once — if the first call loaded remotely, the second is a
pure cache hit returning the same assistant; with force true the remote lookup
always runs, whatever the cache holds.  A present but empty backend is falsy to
both guards, so nothing is ever cached and the loader reruns on every call. -/
theorem c8_nonempty_cache_hit_skips_loader (t1 t2 expire : Nat) (key remote : String)
    (c0 : List CacheEntry) (r1 r2 : EnsureOutcome)
    (hne : c0.isEmpty = false)
    (hremote : remote ≠ "") (ht : t2 < t1 + expire)
    (h1 : ensure_assistant t1 key remote (some c0) expire false = r1)
    (h2 : ensure_assistant t2 key remote r1.cache expire false = r2) :
    (r1.loaderRan && r2.loaderRan) = false ∧
    (r1.loaderRan = true → r2.loaderRan = false ∧ r2.assistant = r1.assistant) ∧
    (∀ c, (ensure_assistant t2 key remote c expire true).loaderRan = true) := by
  subst h2
  subst h1
  have hct : cacheTruthy (some c0) = true := by
    simp [cacheTruthy, hne]
  have hct2 : cacheTruthy
      (some (cacheSet t1 c0 ("openai:assistant:" ++ key) remote expire)) = true := by
    simp [cacheTruthy, cacheSet_isEmpty_false]
  have hforce : ∀ c, (ensure_assistant t2 key remote c expire true).loaderRan = true := by
    intro c
    rfl
  cases hg : cacheGet t1 c0 ("openai:assistant:" ++ key) with
  | some v =>
    by_cases hv : v = ""
    · have hE1 : ensure_assistant t1 key remote (some c0) expire false =
          { assistant := remote
            cache := some (cacheSet t1 c0 ("openai:assistant:" ++ key) remote expire)
            loaderRan := true } := by
        simp [ensure_assistant, hct, hg, hv]
      rw [hE1]
      have hE2 : ensure_assistant t2 key remote
          (some (cacheSet t1 c0 ("openai:assistant:" ++ key) remote expire)) expire false =
          { assistant := remote
            cache := some (cacheSet t1 c0 ("openai:assistant:" ++ key) remote expire)
            loaderRan := false } := by
        simp [ensure_assistant, hct2, cacheGet_cacheSet_same, ht, hremote]
      rw [hE2]
      exact ⟨rfl, fun _ => ⟨rfl, rfl⟩, hforce⟩
    · have hE1 : ensure_assistant t1 key remote (some c0) expire false =
          { assistant := v, cache := some c0, loaderRan := false } := by
        simp [ensure_assistant, hct, hg, hv]
      rw [hE1]
      refine ⟨rfl, ?_, hforce⟩
      intro hcontra
      cases hcontra
  | none =>
    have hE1 : ensure_assistant t1 key remote (some c0) expire false =
        { assistant := remote
          cache := some (cacheSet t1 c0 ("openai:assistant:" ++ key) remote expire)
          loaderRan := true } := by
      simp [ensure_assistant, hct, hg]
    rw [hE1]
    have hE2 : ensure_assistant t2 key remote
        (some (cacheSet t1 c0 ("openai:assistant:" ++ key) remote expire)) expire false =
        { assistant := remote
          cache := some (cacheSet t1 c0 ("openai:assistant:" ++ key) remote expire)
          loaderRan := false } := by
      simp [ensure_assistant, hct2, cacheGet_cacheSet_same, ht, hremote]
    rw [hE2]
    exact ⟨rfl, fun _ => ⟨rfl, rfl⟩, hforce⟩

theorem c8_amended_witness :
    ([{ key := "k0", value := "x", expiresAt := 1 }] : List CacheEntry).isEmpty = false ∧
    ("blob" : String) ≠ "" ∧ (100 < 0 + 900) ∧
    ((({ assistant := "blob",
         cache := some [{ key := "k0", value := "x", expiresAt := 1 },
           { key := "openai:assistant:asst_functic", value := "blob", expiresAt := 900 }],
         loaderRan := true } : EnsureOutcome).loaderRan &&
      (({ assistant := "blob",
          cache := some [{ key := "k0", value := "x", expiresAt := 1 },
            { key := "openai:assistant:asst_functic", value := "blob", expiresAt := 900 }],
          loaderRan := false } : EnsureOutcome)).loaderRan) = false ∧
     (({ assistant := "blob",
         cache := some [{ key := "k0", value := "x", expiresAt := 1 },
           { key := "openai:assistant:asst_functic", value := "blob", expiresAt := 900 }],
         loaderRan := true } : EnsureOutcome).loaderRan = true →
       (({ assistant := "blob",
           cache := some [{ key := "k0", value := "x", expiresAt := 1 },
             { key := "openai:assistant:asst_functic", value := "blob", expiresAt := 900 }],
           loaderRan := false } : EnsureOutcome)).loaderRan = false ∧
       (({ assistant := "blob",
           cache := some [{ key := "k0", value := "x", expiresAt := 1 },
             { key := "openai:assistant:asst_functic", value := "blob", expiresAt := 900 }],
           loaderRan := false } : EnsureOutcome)).assistant =
         ({ assistant := "blob",
            cache := some [{ key := "k0", value := "x", expiresAt := 1 },
              { key := "openai:assistant:asst_functic", value := "blob", expiresAt := 900 }],
            loaderRan := true } : EnsureOutcome).assistant) ∧
     (∀ c, (ensure_assistant 100 "asst_functic" "blob" c 900 true).loaderRan = true)) :=
  ⟨by decide, by decide, by decide,
   c8_nonempty_cache_hit_skips_loader 0 100 900 "asst_functic" "blob"
     [{ key := "k0", value := "x", expiresAt := 1 }]
     { assistant := "blob",
       cache := some [{ key := "k0", value := "x", expiresAt := 1 },
         { key := "openai:assistant:asst_functic", value := "blob", expiresAt := 900 }],
       loaderRan := true }
     { assistant := "blob",
       cache := some [{ key := "k0", value := "x", expiresAt := 1 },
         { key := "openai:assistant:asst_functic", value := "blob", expiresAt := 900 }],
       loaderRan := false }
     (by decide) (by decide) (by decide) rfl rfl⟩

theorem lookupTool_nil (n : String) : lookupTool [] n = none := rfl

theorem lookupTool_cons (k : String) (v : FuncticToolClass)
    (r : List (String × FuncticToolClass)) (n : String) :
    lookupTool ((k, v) :: r) n = if k = n then some v else lookupTool r n := by
  by_cases h : k = n
  · simp [lookupTool, List.find?_cons_of_pos, h]
  · simp only [lookupTool]
    rw [List.find?_cons_of_neg _ (by simpa using h), if_neg h]

theorem loadStep_ok (st : RegState) (cls : FuncticToolClass) :
    loadStep st cls = Except.ok
      { registry := dictInsert st.registry cls.functic_config.name cls
        warnings :=
          if (lookupTool st.registry cls.functic_config.name).isSome then
            st.warnings ++ [cls.functic_config.name]
          else st.warnings } := rfl

theorem loadRegistry_eq_pure : ∀ (classes : List FuncticToolClass) (st : RegState),
    List.foldlM loadStep st classes = Except.ok (loadPure st classes) := by
  intro classes
  induction classes with
  | nil => intro st; rfl
  | cons c rest ih =>
    intro st
    rw [List.foldlM_cons, loadStep_ok]
    show List.foldlM loadStep _ rest = _
    exact ih _

theorem lookupTool_dictInsert (m : String) (cls : FuncticToolClass) (n : String) :
    ∀ r, lookupTool (dictInsert r m cls) n = if m = n then some cls else lookupTool r n := by
  intro r
  induction r with
  | nil =>
    show lookupTool [(m, cls)] n = if m = n then some cls else lookupTool [] n
    rw [lookupTool_cons, lookupTool_nil]
  | cons p rest ih =>
    obtain ⟨k, v⟩ := p
    by_cases hk : k = m
    · have hins : dictInsert ((k, v) :: rest) m cls = (m, cls) :: rest := by
        simp only [dictInsert]
        rw [if_pos hk]
      rw [hins, lookupTool_cons, lookupTool_cons]
      by_cases hn : m = n
      · rw [if_pos hn, if_pos hn]
      · have hkn : ¬ k = n := fun h => hn (hk.symm.trans h)
        rw [if_neg hn, if_neg hn, if_neg hkn]
    · have hins : dictInsert ((k, v) :: rest) m cls = (k, v) :: dictInsert rest m cls := by
        simp only [dictInsert]
        rw [if_neg hk]
      rw [hins, lookupTool_cons, ih, lookupTool_cons]
      by_cases hn : m = n
      · have hkn : ¬ k = n := fun h => hk (h.trans hn.symm)
        rw [if_neg hkn, if_pos hn, if_pos hn]
      · rw [if_neg hn, if_neg hn]

theorem countKey_nil (n : String) : countKey [] n = 0 := rfl

theorem countKey_cons (k : String) (v : FuncticToolClass)
    (r : List (String × FuncticToolClass)) (n : String) :
    countKey ((k, v) :: r) n = (if k = n then 1 else 0) + countKey r n := by
  by_cases h : k = n <;> simp [countKey, List.filter_cons, h] <;> omega

theorem countNamed_nil (n : String) : countNamed [] n = 0 := rfl

theorem countNamed_cons (c : FuncticToolClass) (cs : List FuncticToolClass) (n : String) :
    countNamed (c :: cs) n =
      (if c.functic_config.name = n then 1 else 0) + countNamed cs n := by
  by_cases h : c.functic_config.name = n <;> simp [countNamed, List.filter_cons, h] <;> omega

theorem countKey_dictInsert_ne (m : String) (cls : FuncticToolClass) (n : String)
    (hm : ¬ m = n) :
    ∀ r, countKey (dictInsert r m cls) n = countKey r n := by
  intro r
  induction r with
  | nil =>
    show countKey [(m, cls)] n = countKey [] n
    rw [countKey_cons, if_neg hm, countKey_nil]
  | cons p rest ih =>
    obtain ⟨k, v⟩ := p
    by_cases hk : k = m
    · have hins : dictInsert ((k, v) :: rest) m cls = (m, cls) :: rest := by
        simp only [dictInsert]
        rw [if_pos hk]
      have hkn : ¬ k = n := fun h => hm (hk.symm.trans h)
      rw [hins, countKey_cons, countKey_cons, if_neg hm, if_neg hkn]
    · have hins : dictInsert ((k, v) :: rest) m cls = (k, v) :: dictInsert rest m cls := by
        simp only [dictInsert]
        rw [if_neg hk]
      rw [hins, countKey_cons, countKey_cons, ih]

theorem countKey_dictInsert_eq (cls : FuncticToolClass) (n : String) :
    ∀ r, countKey (dictInsert r n cls) n =
      if countKey r n = 0 then 1 else countKey r n := by
  intro r
  induction r with
  | nil =>
    show countKey [(n, cls)] n = _
    rw [countKey_cons, if_pos rfl, countKey_nil]
    rw [if_pos rfl]
  | cons p rest ih =>
    obtain ⟨k, v⟩ := p
    by_cases hk : k = n
    · have hins : dictInsert ((k, v) :: rest) n cls = (n, cls) :: rest := by
        simp only [dictInsert]
        rw [if_pos hk]
      rw [hins, countKey_cons, if_pos rfl, countKey_cons, if_pos hk]
      split_ifs <;> omega
    · have hins : dictInsert ((k, v) :: rest) n cls = (k, v) :: dictInsert rest n cls := by
        simp only [dictInsert]
        rw [if_neg hk]
      rw [hins, countKey_cons, if_neg hk, countKey_cons, if_neg hk, ih]
      simp only [Nat.zero_add]

theorem countKey_loadPure (n : String) :
    ∀ (cs : List FuncticToolClass) (st : RegState),
      countKey (loadPure st cs).registry n =
        if countNamed cs n = 0 then countKey st.registry n
        else (if countKey st.registry n = 0 then 1 else countKey st.registry n) := by
  intro cs
  induction cs with
  | nil =>
    intro st
    rw [countNamed_nil]
    simp [loadPure]
  | cons c rest ih =>
    intro st
    show countKey (loadPure _ rest).registry n = _
    rw [ih, countNamed_cons]
    by_cases hc : c.functic_config.name = n
    · have hkey : countKey (dictInsert st.registry c.functic_config.name c) n =
          if countKey st.registry n = 0 then 1 else countKey st.registry n := by
        rw [hc]
        exact countKey_dictInsert_eq c n st.registry
      rw [hkey, if_pos hc]
      split_ifs <;> omega
    · have hkey : countKey (dictInsert st.registry c.functic_config.name c) n =
          countKey st.registry n :=
        countKey_dictInsert_ne c.functic_config.name c n hc st.registry
      rw [hkey, if_neg hc]
      simp only [Nat.zero_add]

theorem lastNamed_cons (c : FuncticToolClass) (cs : List FuncticToolClass) (n : String) :
    lastNamed (c :: cs) n =
      (lastNamed cs n).or (if c.functic_config.name = n then some c else none) := by
  unfold lastNamed
  rw [List.reverse_cons, List.find?_append]
  by_cases h : c.functic_config.name = n <;> simp [List.find?, h]

theorem lookupTool_loadPure (n : String) :
    ∀ (cs : List FuncticToolClass) (st : RegState),
      lookupTool (loadPure st cs).registry n =
        (lastNamed cs n).or (lookupTool st.registry n) := by
  intro cs
  induction cs with
  | nil =>
    intro st
    simp [loadPure, lastNamed, List.find?, Option.or]
  | cons c rest ih =>
    intro st
    show lookupTool (loadPure _ rest).registry n = _
    rw [ih, lastNamed_cons, lookupTool_dictInsert]
    cases hl : lastNamed rest n with
    | some d => rfl
    | none =>
      by_cases hc : c.functic_config.name = n <;> simp [hc, Option.or]

theorem loadPure_cons_present (st : RegState) (c : FuncticToolClass)
    (rest : List FuncticToolClass)
    (h : (lookupTool st.registry c.functic_config.name).isSome = true) :
    loadPure st (c :: rest) =
      loadPure
        { registry := dictInsert st.registry c.functic_config.name c
          warnings := st.warnings ++ [c.functic_config.name] } rest := by
  show loadPure _ rest = _
  congr 1
  simp [h]

theorem loadPure_cons_absent (st : RegState) (c : FuncticToolClass)
    (rest : List FuncticToolClass)
    (h : (lookupTool st.registry c.functic_config.name).isSome = false) :
    loadPure st (c :: rest) =
      loadPure
        { registry := dictInsert st.registry c.functic_config.name c
          warnings := st.warnings } rest := by
  show loadPure _ rest = _
  congr 1
  simp [h]

theorem warnCount_loadPure_present (n : String) :
    ∀ (cs : List FuncticToolClass) (st : RegState),
      (lookupTool st.registry n).isSome = true →
      (loadPure st cs).warnings.count n = st.warnings.count n + countNamed cs n := by
  intro cs
  induction cs with
  | nil =>
    intro st _
    rw [countNamed_nil]
    rfl
  | cons c rest ih =>
    intro st hp
    by_cases hc : c.functic_config.name = n
    · have hl : (lookupTool st.registry c.functic_config.name).isSome = true := by
        rw [hc]
        exact hp
      rw [loadPure_cons_present st c rest hl]
      have hp' : (lookupTool
          (dictInsert st.registry c.functic_config.name c) n).isSome = true := by
        rw [lookupTool_dictInsert, if_pos hc]
        rfl
      have hrec := ih
        { registry := dictInsert st.registry c.functic_config.name c
          warnings := st.warnings ++ [c.functic_config.name] } hp'
      dsimp only at hrec
      rw [hrec, List.count_append, countNamed_cons, if_pos hc, hc]
      have h1 : ([n] : List String).count n = 1 := by
        simp [List.count_singleton]
      rw [h1]
      omega
    · cases hl : (lookupTool st.registry c.functic_config.name).isSome with
      | true =>
        rw [loadPure_cons_present st c rest hl]
        have hp' : (lookupTool
            (dictInsert st.registry c.functic_config.name c) n).isSome = true := by
          rw [lookupTool_dictInsert, if_neg hc]
          exact hp
        have hrec := ih
          { registry := dictInsert st.registry c.functic_config.name c
            warnings := st.warnings ++ [c.functic_config.name] } hp'
        dsimp only at hrec
        rw [hrec, List.count_append, countNamed_cons, if_neg hc]
        have h0 : ([c.functic_config.name] : List String).count n = 0 := by
          simp [List.count_singleton, hc]
        rw [h0]
        omega
      | false =>
        rw [loadPure_cons_absent st c rest hl]
        have hp' : (lookupTool
            (dictInsert st.registry c.functic_config.name c) n).isSome = true := by
          rw [lookupTool_dictInsert, if_neg hc]
          exact hp
        have hrec := ih
          { registry := dictInsert st.registry c.functic_config.name c
            warnings := st.warnings } hp'
        dsimp only at hrec
        rw [hrec, countNamed_cons, if_neg hc]
        omega

theorem warnCount_loadPure_absent (n : String) :
    ∀ (cs : List FuncticToolClass) (k : Nat) (st : RegState),
      lookupTool st.registry n = none →
      countNamed cs n = k + 1 →
      (loadPure st cs).warnings.count n = st.warnings.count n + k := by
  intro cs
  induction cs with
  | nil =>
    intro k st _ hcount
    rw [countNamed_nil] at hcount
    cases hcount
  | cons c rest ih =>
    intro k st habs hcount
    by_cases hc : c.functic_config.name = n
    · have hl : (lookupTool st.registry c.functic_config.name).isSome = false := by
        rw [hc, habs]
        rfl
      rw [loadPure_cons_absent st c rest hl]
      have hp' : (lookupTool
          (dictInsert st.registry c.functic_config.name c) n).isSome = true := by
        rw [lookupTool_dictInsert, if_pos hc]
        rfl
      have hrec := warnCount_loadPure_present n rest
        { registry := dictInsert st.registry c.functic_config.name c
          warnings := st.warnings } hp'
      dsimp only at hrec
      rw [hrec]
      rw [countNamed_cons, if_pos hc] at hcount
      omega
    · rw [countNamed_cons, if_neg hc] at hcount
      cases hl : (lookupTool st.registry c.functic_config.name).isSome with
      | true =>
        rw [loadPure_cons_present st c rest hl]
        have habs' : lookupTool (dictInsert st.registry c.functic_config.name c) n = none := by
          rw [lookupTool_dictInsert, if_neg hc]
          exact habs
        have hrec := ih k
          { registry := dictInsert st.registry c.functic_config.name c
            warnings := st.warnings ++ [c.functic_config.name] } habs' (by omega)
        dsimp only at hrec
        rw [hrec, List.count_append]
        have h0 : ([c.functic_config.name] : List String).count n = 0 := by
          simp [List.count_singleton, hc]
        rw [h0]
        omega
      | false =>
        rw [loadPure_cons_absent st c rest hl]
        have habs' : lookupTool (dictInsert st.registry c.functic_config.name c) n = none := by
          rw [lookupTool_dictInsert, if_neg hc]
          exact habs
        have hrec := ih k
          { registry := dictInsert st.registry c.functic_config.name c
            warnings := st.warnings } habs' (by omega)
        dsimp only at hrec
        rw [hrec]

/-- C7: in a registration pass over the configured modules in which exactly two
discovered tool classes declare the same config name, the pass succeeds and the
resulting registry holds exactly one entry under that name — the later
registered class — and exactly one duplicate-name warning for that name is
emitted (the first duplicate insertion is silent, the overwrite warns). -/
theorem c7_duplicate_registration_last_wins (classes : List FuncticToolClass) (n : String)
    (hdup : countNamed classes n = 2) :
    ∃ st, loadRegistry classes = Except.ok st ∧
      countKey st.registry n = 1 ∧
      lookupTool st.registry n = lastNamed classes n ∧
      st.warnings.count n = 1 := by
  refine ⟨loadPure { registry := [], warnings := [] } classes,
    loadRegistry_eq_pure classes _, ?_, ?_, ?_⟩
  · rw [countKey_loadPure n classes, hdup, countKey_nil]
    norm_num
  · rw [lookupTool_loadPure n classes]
    cases lastNamed classes n with
    | some d => rfl
    | none => rfl
  · have := warnCount_loadPure_absent n classes 1
      { registry := [], warnings := [] } rfl (by rw [hdup])
    dsimp only at this
    rw [this]
    simp

theorem c7_witness :
    countNamed [dupClassA, dupClassB] "dup" = 2 ∧
    (∃ st, loadRegistry [dupClassA, dupClassB] = Except.ok st ∧
      countKey st.registry "dup" = 1 ∧
      lookupTool st.registry "dup" = lastNamed [dupClassA, dupClassB] "dup" ∧
      st.warnings.count "dup" = 1) :=
  ⟨rfl, c7_duplicate_registration_last_wins [dupClassA, dupClassB] "dup" rfl⟩
